import Mathlib

/-!
Verification of the mtg proxy's per-stream context, anti-replay gate,
IP gates and listener, as a shallow embedding of the Go sources.

Machine integers are modelled as `Nat` (bytes are `Nat` values below 256);
fallible operations return `Option`/`Except`; a Go panic is modelled as the
`none` branch of an `Option`-returning function; logging side effects are
modelled as an explicit list of logged messages.
-/

namespace Mtg

/-! ## IP addresses and connections -/

/-- An IP address: a 32-bit IPv4 value or a 128-bit IPv6 value, as a `Nat`. -/
inductive IP where
  | v4 (a : Nat)
  | v6 (a : Nat)
deriving DecidableEq

/-- The address is within its family's range (IPv4 below 2^32, IPv6 below 2^128). -/
def IP.valid : IP → Prop
  | .v4 a => a < 2 ^ 32
  | .v6 a => a < 2 ^ 128

instance (ip : IP) : Decidable ip.valid := by
  cases ip <;> simp [IP.valid] <;> infer_instance

/-- The peer address of a connection: Go's `net.Addr`. `newStreamContext` only
works when it is concretely a `*net.TCPAddr`. -/
inductive RemoteAddr where
  | tcpAddr (ip : IP)
  | nonTCPAddr
deriving DecidableEq

/-- A network connection (`essentials.Conn`): its peer address and how many
times `Close` has been invoked on it. -/
structure Conn where
  remoteAddr : RemoteAddr
  closeCount : Nat
deriving DecidableEq

/-- The connection has been closed at least once. -/
def Conn.isClosed (c : Conn) : Bool := decide (0 < c.closeCount)

/-- Go `conn.Close()`: always records the attempt; closing an
already-closed TCP connection returns an error (second component). -/
def Conn.close (c : Conn) : Conn × Bool :=
  ({ c with closeCount := c.closeCount + 1 }, c.isClosed)

/-! ## streamContext (mtglib, src/unnamed/part_000) -/

/-- The `streamContext` struct: cancellation state, both connection legs
(each `none` when the Go field is nil), the stream id, the dc and the
messages logged through `logger.InfoError`. -/
structure StreamContext where
  cancelled : Bool
  clientConn : Option Conn
  telegramConn : Option Conn
  streamID : String
  dc : Int
  loggedErrors : List String
deriving DecidableEq

/-- The body of one `if conn != nil { if err := conn.Close(); err != nil { log } }`
block of `streamContext.Close`: the updated field and the logged messages. -/
def closeConnOpt (name : String) (c : Option Conn) : Option Conn × List String :=
  match c with
  | none => (none, [])
  | some conn =>
    let r := conn.close
    (some r.1, if r.2 then [String.append "error closing " name] else [])

/-- `streamContext.Close`: cancel the context, then close `clientConn` if
non-nil, then close `telegramConn` if non-nil, logging any close error. -/
def StreamContext.close (s : StreamContext) : StreamContext :=
  let rc := closeConnOpt "clientConn" s.clientConn
  let rt := closeConnOpt "telegramConn" s.telegramConn
  { s with
      cancelled := true
      clientConn := rc.1
      telegramConn := rt.1
      loggedErrors := s.loggedErrors ++ rc.2 ++ rt.2 }

/-- A concrete stream context with both legs connected and not yet closed. -/
def sampleCtx : StreamContext :=
  { cancelled := false
    clientConn := some ⟨.tcpAddr (.v4 167772170), 0⟩
    telegramConn := some ⟨.tcpAddr (.v4 2), 0⟩
    streamID := "b0Cq6tolzmNLfWzXAbg_sQ"
    dc := 2
    loggedErrors := [] }

/-- C1 counterexample: calling `Close` twice is not a no-op.  On a concrete
context the second call changes the state again: it re-invokes `Close` on both
connections (their close counts reach 2) and logs two already-closed errors. -/
theorem close_second_call_changes_state :
    sampleCtx.close.close ≠ sampleCtx.close ∧
      sampleCtx.close.close.clientConn = some ⟨.tcpAddr (.v4 167772170), 2⟩ ∧
      sampleCtx.close.clientConn = some ⟨.tcpAddr (.v4 167772170), 1⟩ := by
  decide

/-- C1 (amended): the first `Close` on a context with both legs present cancels
the handle and closes each connection exactly once; a second `Close` leaves the
cancellation and the closed-ness of both legs unchanged, but attempts to close
both connections again (each close count reaches 2) and logs the two
already-closed errors. -/
theorem close_first_closes_once_second_reattempts
    (s : StreamContext) (c t : Conn)
    (hc : s.clientConn = some c) (ht : s.telegramConn = some t)
    (hc0 : c.closeCount = 0) (ht0 : t.closeCount = 0) :
    s.close.cancelled = true ∧
      s.close.clientConn = some { c with closeCount := 1 } ∧
      s.close.telegramConn = some { t with closeCount := 1 } ∧
      s.close.close.cancelled = true ∧
      s.close.close.clientConn = some { c with closeCount := 2 } ∧
      s.close.close.telegramConn = some { t with closeCount := 2 } ∧
      s.close.close.loggedErrors =
        s.close.loggedErrors ++
          ["error closing clientConn", "error closing telegramConn"] := by
  simp [StreamContext.close, closeConnOpt, hc, ht, Conn.close, Conn.isClosed,
    hc0, ht0, String.append]

/-- C1 witness: the amended behaviour at the concrete context `sampleCtx`. -/
theorem close_first_closes_once_second_reattempts_witness :
    sampleCtx.close.cancelled = true ∧
      sampleCtx.close.clientConn = some ⟨.tcpAddr (.v4 167772170), 1⟩ ∧
      sampleCtx.close.telegramConn = some ⟨.tcpAddr (.v4 2), 1⟩ ∧
      sampleCtx.close.close.cancelled = true ∧
      sampleCtx.close.close.clientConn = some ⟨.tcpAddr (.v4 167772170), 2⟩ ∧
      sampleCtx.close.close.telegramConn = some ⟨.tcpAddr (.v4 2), 2⟩ ∧
      sampleCtx.close.close.loggedErrors =
        sampleCtx.close.loggedErrors ++
          ["error closing clientConn", "error closing telegramConn"] :=
  close_first_closes_once_second_reattempts sampleCtx _ _ rfl rfl rfl rfl

/-- C8: `Close` is total when a leg is nil: with `telegramConn = nil` it still
cancels the context, closes only the non-nil leg (the nil leg is never
dereferenced: it stays `nil` and no close is attempted on it), and is likewise
safe when `clientConn` is nil. -/
theorem close_with_nil_leg_safe
    (s : StreamContext) (hT : s.telegramConn = none) :
    s.close.cancelled = true ∧
      s.close.telegramConn = none ∧
      (∀ c, s.clientConn = some c →
        s.close.clientConn = some c.close.1 ∧
          s.close.loggedErrors = s.loggedErrors ++ (closeConnOpt "clientConn" s.clientConn).2) ∧
      (s.clientConn = none →
        s.close.clientConn = none ∧ s.close.loggedErrors = s.loggedErrors) := by
  refine ⟨by simp [StreamContext.close], by simp [StreamContext.close, hT, closeConnOpt], ?_, ?_⟩
  · intro c hcl
    simp [StreamContext.close, hT, hcl, closeConnOpt]
  · intro hcl
    simp [StreamContext.close, hT, hcl, closeConnOpt]

/-- A concrete stream context closed before any upstream connection was dialed. -/
def earlyCtx : StreamContext :=
  { cancelled := false
    clientConn := some ⟨.tcpAddr (.v4 5), 0⟩
    telegramConn := none
    streamID := ""
    dc := 0
    loggedErrors := [] }

/-- C8 witness: closing a context whose upstream leg was never dialed. -/
theorem close_with_nil_leg_safe_witness :
    earlyCtx.close.cancelled = true ∧
      earlyCtx.close.telegramConn = none ∧
      (∀ c, earlyCtx.clientConn = some c →
        earlyCtx.close.clientConn = some c.close.1 ∧
          earlyCtx.close.loggedErrors =
            earlyCtx.loggedErrors ++ (closeConnOpt "clientConn" earlyCtx.clientConn).2) ∧
      (earlyCtx.clientConn = none →
        earlyCtx.close.clientConn = none ∧
          earlyCtx.close.loggedErrors = earlyCtx.loggedErrors) :=
  close_with_nil_leg_safe earlyCtx rfl

/-! ## Anti-replay cache (src/antireplay/noop.go) -/

/-- The `mtglib.AntiReplayCache` interface as a state machine: `seenBefore`
answers whether the byte string was seen and yields the updated state. -/
structure AntiReplayCacheModel where
  State : Type
  initState : State
  seenBefore : State → List Nat → Bool × State

/-- The `antireplay.noop` implementation: `SeenBefore` ignores its argument,
keeps no state and always returns `false`. -/
def noopCacheModel : AntiReplayCacheModel :=
  { State := Unit
    initState := ()
    seenBefore := fun s _ => (false, s) }

/-- Run a sequence of `seenBefore` queries from a state, collecting the answers. -/
def runSeenBefore (m : AntiReplayCacheModel) : m.State → List (List Nat) → List Bool
  | _, [] => []
  | s, q :: qs =>
    let r := m.seenBefore s q
    r.1 :: runSeenBefore m r.2 qs

/-- C2's property as stated: once a byte string has been presented to
`seen_before`, every subsequent call with it returns `true`. -/
def NeverFalseNegative (m : AntiReplayCacheModel) : Prop :=
  ∀ (qs : List (List Nat)) (i j : Nat), i < j → j < qs.length →
    qs.getD i [] = qs.getD j [] →
    (runSeenBefore m m.initState qs).getD j false = true

/-- C7's property as stated: once `seen_before(x)` has returned `true`, all
subsequent calls with `x` also return `true`. -/
def SeenBeforeMonotone (m : AntiReplayCacheModel) : Prop :=
  ∀ (qs : List (List Nat)) (i j : Nat), i < j → j < qs.length →
    qs.getD i [] = qs.getD j [] →
    (runSeenBefore m m.initState qs).getD i false = true →
    (runSeenBefore m m.initState qs).getD j false = true

/-- Every answer the noop cache ever gives is `false`. -/
theorem runSeenBefore_noop_all_false (s : Unit) (qs : List (List Nat)) (j : Nat) :
    (runSeenBefore noopCacheModel s qs).getD j false = false := by
  induction qs generalizing s j with
  | nil => simp [runSeenBefore]
  | cons q qs ih =>
    cases j with
    | zero => simp [runSeenBefore, noopCacheModel]
    | succ j => simpa [runSeenBefore, noopCacheModel] using ih s j

/-- C2 counterexample: the no-op anti-replay cache — an implementation the
spec admits, selected when the defense is disabled — violates the property:
presenting `[0]` and asking again returns `false`, not `true`. -/
theorem noop_cache_false_negative : ¬ NeverFalseNegative noopCacheModel := by
  intro h
  have := h [[0], [0]] 0 1 (by decide) (by decide) (by decide)
  simp [runSeenBefore, noopCacheModel] at this

/-- C2 (amended): the no-op implementation never reports any byte string as
seen — `SeenBefore` returns `false` on every call, whatever was presented
before — so the no-false-negative guarantee holds for it only vacuously. -/
theorem noop_cache_never_reports_seen :
    ∀ (s : Unit) (x : List Nat), (noopCacheModel.seenBefore s x).1 = false ∧
      (noopCacheModel.seenBefore s x).2 = s := by
  intro s x
  exact ⟨rfl, rfl⟩

/-- C7: anti-replay monotonicity holds for the noop implementation, the one in
the source: it never returns `true`, so once-true-always-true is vacuous —
and indeed every query in every call sequence answers `false`. -/
theorem noop_cache_monotone :
    SeenBeforeMonotone noopCacheModel ∧
      ∀ (qs : List (List Nat)) (j : Nat),
        (runSeenBefore noopCacheModel noopCacheModel.initState qs).getD j false = false := by
  constructor
  · intro qs i j _ _ _ htrue
    rw [runSeenBefore_noop_all_false] at htrue
    exact absurd htrue (by simp)
  · intro qs j
    exact runSeenBefore_noop_all_false _ qs j

/-! ## base64.RawURLEncoding and newStreamContext (src/unnamed/part_000) -/

/-- The URL-safe base64 alphabet of Go's `encoding/base64`. -/
def base64URLAlphabet : List Char :=
  "ABCDEFGHIJKLMNOPQRSTUVWXYZabcdefghijklmnopqrstuvwxyz0123456789-_".toList

/-- The alphabet character for a 6-bit value. -/
def b64Char (n : Nat) : Char := base64URLAlphabet.getD n 'A'

/-- Go's `base64.RawURLEncoding.EncodeToString` (URL alphabet, no padding),
translated from `encoding/base64.Encode`: each 3-byte group becomes 4
characters; a 1-byte remainder becomes 2 characters and a 2-byte remainder 3. -/
def encodeRawURLChars : List Nat → List Char
  | [] => []
  | [b0] =>
    let v := b0 * 65536
    [b64Char (v / 262144 % 64), b64Char (v / 4096 % 64)]
  | [b0, b1] =>
    let v := b0 * 65536 + b1 * 256
    [b64Char (v / 262144 % 64), b64Char (v / 4096 % 64), b64Char (v / 64 % 64)]
  | b0 :: b1 :: b2 :: rest =>
    let v := b0 * 65536 + b1 * 256 + b2
    b64Char (v / 262144 % 64) :: b64Char (v / 4096 % 64) ::
      b64Char (v / 64 % 64) :: b64Char (v % 64) :: encodeRawURLChars rest

/-- `base64.RawURLEncoding.EncodeToString` as a `String`. -/
def base64RawURLEncode (bs : List Nat) : String := String.mk (encodeRawURLChars bs)

/-- Modelled from the spec: `mtglib.ConnectionIDBytesLength` is declared
outside the given sources; the spec fixes the correlation id at 16 random
bytes. -/
def ConnectionIDBytesLength : Nat := 16

/-- `streamContext.ClientIP`: the forced type assertion
`RemoteAddr().(*net.TCPAddr)` succeeds only on a TCP peer address; `none`
models the panic on any other address (or a nil client connection). -/
def StreamContext.clientIPOpt (s : StreamContext) : Option IP :=
  match s.clientConn with
  | none => none
  | some c =>
    match c.remoteAddr with
    | .tcpAddr ip => some ip
    | .nonTCPAddr => none

/-- `newStreamContext`: reads `ConnectionIDBytesLength` random bytes
(`randResult = none` models a failing `crand.Read`, which panics), derives a
cancellable context, sets the stream id to the base64url-without-padding
encoding of the random bytes, and binds a logger to the stream id and the
client IP — the latter through `ClientIP`, panicking on a non-TCP peer
address. `none` models either panic. -/
def newStreamContext (randResult : Option (List Nat)) (clientConn : Conn) :
    Option StreamContext :=
  match randResult with
  | none => none
  | some connIDBytes =>
    let streamCtx : StreamContext :=
      { cancelled := false
        clientConn := some clientConn
        telegramConn := none
        streamID := base64RawURLEncode connIDBytes
        dc := 0
        loggedErrors := [] }
    match streamCtx.clientIPOpt with
    | none => none
    | some _ => some streamCtx

/-- Every character the encoder emits comes from the URL-safe alphabet. -/
theorem b64Char_mem (n : Nat) : b64Char n ∈ base64URLAlphabet := by
  by_cases h : n < base64URLAlphabet.length
  · rw [b64Char, List.getD_eq_getElem _ _ h]
    exact List.getElem_mem h
  · rw [b64Char, List.getD_eq_default _ _ (Nat.le_of_not_lt h)]
    decide

/-- Every character of an encoded string is an alphabet character. -/
theorem mem_encodeRawURLChars :
    ∀ (bs : List Nat), ∀ ch ∈ encodeRawURLChars bs, ch ∈ base64URLAlphabet
  | [] => by simp [encodeRawURLChars]
  | [b0] => by
    intro ch hch
    simp only [encodeRawURLChars, List.mem_cons, List.not_mem_nil, or_false] at hch
    rcases hch with h | h <;> exact h ▸ b64Char_mem _
  | [b0, b1] => by
    intro ch hch
    simp only [encodeRawURLChars, List.mem_cons, List.not_mem_nil, or_false] at hch
    rcases hch with h | h | h <;> exact h ▸ b64Char_mem _
  | b0 :: b1 :: b2 :: rest => by
    intro ch hch
    simp only [encodeRawURLChars, List.mem_cons] at hch
    rcases hch with h | h | h | h | h
    · exact h ▸ b64Char_mem _
    · exact h ▸ b64Char_mem _
    · exact h ▸ b64Char_mem _
    · exact h ▸ b64Char_mem _
    · exact mem_encodeRawURLChars rest ch h

/-- C3: a stream context successfully created from 16 random bytes (the
successful `crand.Read` of `ConnectionIDBytesLength` bytes) carries as its
stream id exactly the base64url-without-padding encoding of those bytes, the
id is 22 characters of the URL-safe alphabet (never a padding character), and
it is assigned once at accept time — `Close` never alters it. -/
theorem newStreamContext_streamID_base64
    (bs : List Nat) (conn : Conn) (ip : IP)
    (hlen : bs.length = ConnectionIDBytesLength)
    (hbytes : ∀ b ∈ bs, b < 256)
    (haddr : conn.remoteAddr = .tcpAddr ip) :
    ∃ ctx : StreamContext,
      newStreamContext (some bs) conn = some ctx ∧
        ctx.streamID = base64RawURLEncode bs ∧
        ctx.streamID.length = 22 ∧
        (∀ ch ∈ ctx.streamID.toList, ch ∈ base64URLAlphabet) ∧
        ctx.close.streamID = ctx.streamID := by
  refine ⟨{ cancelled := false, clientConn := some conn, telegramConn := none,
            streamID := base64RawURLEncode bs, dc := 0, loggedErrors := [] },
    ?_, rfl, ?_, ?_, by simp [StreamContext.close]⟩
  · simp [newStreamContext, StreamContext.clientIPOpt, haddr]
  · match bs, hlen with
    | [b0, b1, b2, b3, b4, b5, b6, b7, b8, b9, b10, b11, b12, b13, b14, b15], _ =>
      simp [base64RawURLEncode, encodeRawURLChars, String.length]
  · intro ch hch
    exact mem_encodeRawURLChars bs ch (by simpa [base64RawURLEncode] using hch)

/-- A concrete result of `crand.Read` for 16 connection-id bytes. -/
def sampleIDBytes : List Nat :=
  [109, 64, 170, 234, 218, 37, 206, 99, 75, 125, 108, 215, 1, 184, 63, 177]

/-- C3 witness: constructing a stream context from 16 concrete random bytes. -/
theorem newStreamContext_streamID_base64_witness :
    ∃ ctx : StreamContext,
      newStreamContext (some sampleIDBytes) ⟨.tcpAddr (.v4 5), 0⟩ = some ctx ∧
        ctx.streamID = base64RawURLEncode sampleIDBytes ∧
        ctx.streamID.length = 22 ∧
        (∀ ch ∈ ctx.streamID.toList, ch ∈ base64URLAlphabet) ∧
        ctx.close.streamID = ctx.streamID :=
  newStreamContext_streamID_base64 sampleIDBytes ⟨.tcpAddr (.v4 5), 0⟩ (.v4 5)
    (by decide) (by decide) rfl

/-- C9: `newStreamContext` panics — returns no context — exactly when the
cryptographic random read fails or the client's peer address is not a
`*net.TCPAddr`; the latter comes from the forced type assertion inside
`ClientIP`, which yields no IP exactly on a non-TCP peer address. -/
theorem newStreamContext_panic_conditions
    (r : Option (List Nat)) (conn : Conn) (s : StreamContext)
    (hs : s.clientConn = some conn) :
    (newStreamContext r conn = none ↔ r = none ∨ conn.remoteAddr = .nonTCPAddr) ∧
      (s.clientIPOpt = none ↔ conn.remoteAddr = .nonTCPAddr) := by
  constructor
  · cases r with
    | none => simp [newStreamContext]
    | some bs =>
      cases h : conn.remoteAddr <;>
        simp [newStreamContext, StreamContext.clientIPOpt, h]
  · cases h : conn.remoteAddr <;> simp [StreamContext.clientIPOpt, hs, h]

/-- C9 witness: a client connection whose peer address is not TCP makes
`newStreamContext` panic even when the random read succeeds, and a failing
random read panics as well. -/
theorem newStreamContext_panic_conditions_witness :
    ((newStreamContext (some sampleIDBytes) ⟨.nonTCPAddr, 0⟩ = none ↔
        (some sampleIDBytes : Option (List Nat)) = none ∨
          (⟨.nonTCPAddr, 0⟩ : Conn).remoteAddr = .nonTCPAddr) ∧
      (({ earlyCtx with clientConn := some ⟨.nonTCPAddr, 0⟩ } : StreamContext).clientIPOpt = none ↔
        (⟨.nonTCPAddr, 0⟩ : Conn).remoteAddr = .nonTCPAddr)) :=
  newStreamContext_panic_conditions (some sampleIDBytes) ⟨.nonTCPAddr, 0⟩
    { earlyCtx with clientConn := some ⟨.nonTCPAddr, 0⟩ } rfl

/-! ## IP gates (src/internal/cli/run_proxy.go, src/unnamed/part_001) -/

/-- An IP network (CIDR): family, network address value and prefix length. -/
inductive IPNet where
  | v4net (net : Nat) (len : Nat)
  | v6net (net : Nat) (len : Nat)
deriving DecidableEq

/-- Modelled from the spec: `cidranger.AllIPv4`, the 0.0.0.0/0 network. -/
def allIPv4 : IPNet := .v4net 0 0

/-- Modelled from the spec: `cidranger.AllIPv6`, the ::/0 network. -/
def allIPv6 : IPNet := .v6net 0 0

/-- Modelled from the spec: CIDR containment as cidranger implements it — an
address belongs to a network of its family when both agree on the first
`len` bits; no address belongs to a network of the other family. -/
def ipNetContains : IPNet → IP → Bool
  | .v4net net len, .v4 a => decide (a / 2 ^ (32 - len) = net / 2 ^ (32 - len))
  | .v6net net len, .v6 a => decide (a / 2 ^ (128 - len) = net / 2 ^ (128 - len))
  | _, _ => false

/-- Modelled from the spec: a firehol list built from loaded subnets answers
`Contains(ip)` with whether any loaded subnet contains the address. -/
def fireholContains (nets : List IPNet) (ip : IP) : Bool :=
  nets.any (fun n => ipNetContains n ip)

/-- Modelled from the spec and the NoopTestSuite test: the noop blocklist's
`Contains` returns `false` for every address. -/
def noopListContains (_ : IP) : Bool := false

/-- A configuration URL for a list source (remote URL or local file path). -/
structure ConfigURL where
  value : String
  remote : Bool
deriving DecidableEq

/-- `config.ListConfig`: the `defense.{blocklist,allowlist}.*` options, each
optional value carrying `Get(default)` semantics via `Option.getD`. -/
structure ListConfig where
  enabled : Option Bool
  urls : List ConfigURL
  downloadConcurrency : Option Nat
  updateEach : Option Nat
deriving DecidableEq

/-- The implementation selected for an IP list. `fireholRemote` records the
parameters handed to `ipblocklist.NewFirehol` (its own failure conditions and
downloaded contents live outside the given sources); `fireholMem` records the
subnets of an in-memory file handed to `NewFireholFromFiles`. -/
inductive IPBlocklistImpl where
  | noopList
  | fireholRemote (downloadConcurrency : Nat) (remoteURLs localFiles : List String)
  | fireholMem (nets : List IPNet)
deriving DecidableEq

/-- `makeIPBlocklist`: the noop list when the config is disabled, otherwise a
firehol list over the configured URLs split into remote and local sources. -/
def makeIPBlocklist (conf : ListConfig) : Except String IPBlocklistImpl :=
  if conf.enabled.getD false = false then
    .ok .noopList
  else
    .ok (.fireholRemote (conf.downloadConcurrency.getD 1)
      ((conf.urls.filter (fun u => u.remote)).map (fun u => u.value))
      ((conf.urls.filter (fun u => !u.remote)).map (fun u => u.value)))

/-- `makeIPAllowlist`: when the allowlist is disabled, a firehol list over an
in-memory file holding `AllIPv4` and `AllIPv6`; otherwise built exactly like a
blocklist from the configured sources. -/
def makeIPAllowlist (conf : ListConfig) : Except String IPBlocklistImpl :=
  if conf.enabled.getD false = false then
    .ok (.fireholMem [allIPv4, allIPv6])
  else
    makeIPBlocklist conf

/-- The spec's pass rule: a connection passes iff the allowlist contains the
source IP and the blocklist does not. -/
def connectionPasses (allowContains blockContains : IP → Bool) (ip : IP) : Bool :=
  allowContains ip && !blockContains ip

/-- C5: a disabled allowlist allows all — `makeIPAllowlist` on a disabled
config builds the in-memory firehol list over `AllIPv4` and `AllIPv6`, and
that list contains every IPv4 and every IPv6 address. -/
theorem disabled_allowlist_allows_all
    (conf : ListConfig) (ip : IP)
    (hdis : conf.enabled.getD false = false) (hip : ip.valid) :
    makeIPAllowlist conf = .ok (.fireholMem [allIPv4, allIPv6]) ∧
      fireholContains [allIPv4, allIPv6] ip = true := by
  refine ⟨by simp [makeIPAllowlist, hdis], ?_⟩
  cases ip with
  | v4 a =>
    simp only [IP.valid] at hip
    have h0 : a / 2 ^ 32 = 0 := Nat.div_eq_of_lt hip
    simp [fireholContains, ipNetContains, allIPv4, allIPv6]
    norm_num at h0 ⊢
    exact h0
  | v6 a =>
    simp only [IP.valid] at hip
    have h0 : a / 2 ^ 128 = 0 := Nat.div_eq_of_lt hip
    simp [fireholContains, ipNetContains, allIPv4, allIPv6]
    norm_num at h0 ⊢
    exact h0

/-- C5 witness: a disabled allowlist config allows the concrete address
10.0.0.10. -/
theorem disabled_allowlist_allows_all_witness :
    makeIPAllowlist ⟨none, [], none, none⟩ = .ok (.fireholMem [allIPv4, allIPv6]) ∧
      fireholContains [allIPv4, allIPv6] (.v4 167772170) = true :=
  disabled_allowlist_allows_all ⟨none, [], none, none⟩ (.v4 167772170)
    (by decide) (by decide)

/-- C6: a disabled blocklist denies nothing — `makeIPBlocklist` on a disabled
config returns the noop list, whose `Contains` is `false` everywhere, so under
the pass rule the blocklist never rejects a connection: passing reduces to the
allowlist's verdict alone. -/
theorem disabled_blocklist_denies_nothing
    (conf : ListConfig) (hdis : conf.enabled.getD false = false) :
    makeIPBlocklist conf = .ok .noopList ∧
      (∀ ip : IP, noopListContains ip = false) ∧
      (∀ (allowContains : IP → Bool) (ip : IP),
        connectionPasses allowContains noopListContains ip = allowContains ip) := by
  refine ⟨by simp [makeIPBlocklist, hdis], fun _ => rfl, fun ac ip => ?_⟩
  simp [connectionPasses, noopListContains]

/-- C6 witness: a disabled blocklist config yields the noop list, which does
not contain 10.0.0.10 (the NoopTestSuite check), and never blocks a pass. -/
theorem disabled_blocklist_denies_nothing_witness :
    makeIPBlocklist ⟨some false, [], none, none⟩ = .ok .noopList ∧
      (∀ ip : IP, noopListContains ip = false) ∧
      (∀ (allowContains : IP → Bool) (ip : IP),
        connectionPasses allowContains noopListContains ip = allowContains ip) :=
  disabled_blocklist_denies_nothing ⟨some false, [], none, none⟩ (by decide)

/-! ## Anti-replay cache selection (src/internal/cli/run_proxy.go) -/

/-- `config` values for `defense.anti-replay.*`, each optional value carrying
`Get(default)` semantics via `Option.getD`; the error rate is an opaque
numeric value the selection logic only passes through. -/
structure AntiReplayConfig where
  enabled : Option Bool
  maxSize : Option Nat
  errorRate : Option ℚ
deriving DecidableEq

/-- Modelled from the spec: `antireplay.DefaultStableBloomFilterMaxSize` is
declared outside the given sources; only its identity as the default used when
`max-size` is unset matters here. -/
def DefaultStableBloomFilterMaxSize : Nat := 1048576

/-- Modelled from the spec: `antireplay.DefaultStableBloomFilterErrorRate` is
declared outside the given sources; only its identity as the default used when
`error-rate` is unset matters here. -/
def DefaultStableBloomFilterErrorRate : ℚ := 1 / 1000

/-- The anti-replay implementation selected at startup: the noop cache or a
stable Bloom filter with its two parameters. -/
inductive AntiReplayCacheImpl where
  | noopCache
  | stableBloomFilter (maxSize : Nat) (errorRate : ℚ)
deriving DecidableEq

/-- `makeAntiReplayCache`: the noop cache when `defense.anti-replay.enabled`
is absent or false, otherwise a stable Bloom filter over the configured
max-size and error-rate with the package defaults when unset. -/
def makeAntiReplayCache (conf : AntiReplayConfig) : AntiReplayCacheImpl :=
  if conf.enabled.getD false = false then
    .noopCache
  else
    .stableBloomFilter (conf.maxSize.getD DefaultStableBloomFilterMaxSize)
      (conf.errorRate.getD DefaultStableBloomFilterErrorRate)

/-- C4: `makeAntiReplayCache` returns the noop cache exactly when
`defense.anti-replay.enabled` is absent or false; when enabled it returns the
stable Bloom filter over the configured max-size and error-rate with the
documented defaults when unset; no third implementation is ever selected. -/
theorem makeAntiReplayCache_selection (conf : AntiReplayConfig) :
    (makeAntiReplayCache conf = .noopCache ↔ conf.enabled.getD false = false) ∧
      (conf.enabled.getD false = true →
        makeAntiReplayCache conf =
          .stableBloomFilter (conf.maxSize.getD DefaultStableBloomFilterMaxSize)
            (conf.errorRate.getD DefaultStableBloomFilterErrorRate)) ∧
      (makeAntiReplayCache conf = .noopCache ∨
        makeAntiReplayCache conf =
          .stableBloomFilter (conf.maxSize.getD DefaultStableBloomFilterMaxSize)
            (conf.errorRate.getD DefaultStableBloomFilterErrorRate)) := by
  by_cases h : conf.enabled.getD false = false
  · exact ⟨by simp [makeAntiReplayCache, h], fun ht => absurd ht (by simp [h]),
      Or.inl (by simp [makeAntiReplayCache, h])⟩
  · refine ⟨?_, fun _ => by simp [makeAntiReplayCache, h], Or.inr (by simp [makeAntiReplayCache, h])⟩
    simp [makeAntiReplayCache, h]

/-- C4 witness: a config enabling the defense with max-size 300000 and the
error rate unset selects the Bloom filter with the default error rate, and the
empty config selects the noop cache. -/
theorem makeAntiReplayCache_selection_witness :
    (makeAntiReplayCache ⟨some true, some 300000, none⟩ = .noopCache ↔
        (⟨some true, some 300000, none⟩ : AntiReplayConfig).enabled.getD false = false) ∧
      ((⟨some true, some 300000, none⟩ : AntiReplayConfig).enabled.getD false = true →
        makeAntiReplayCache ⟨some true, some 300000, none⟩ =
          .stableBloomFilter
            ((⟨some true, some 300000, none⟩ : AntiReplayConfig).maxSize.getD
              DefaultStableBloomFilterMaxSize)
            ((⟨some true, some 300000, none⟩ : AntiReplayConfig).errorRate.getD
              DefaultStableBloomFilterErrorRate)) ∧
      (makeAntiReplayCache ⟨some true, some 300000, none⟩ = .noopCache ∨
        makeAntiReplayCache ⟨some true, some 300000, none⟩ =
          .stableBloomFilter
            ((⟨some true, some 300000, none⟩ : AntiReplayConfig).maxSize.getD
              DefaultStableBloomFilterMaxSize)
            ((⟨some true, some 300000, none⟩ : AntiReplayConfig).errorRate.getD
              DefaultStableBloomFilterErrorRate)) :=
  makeAntiReplayCache_selection ⟨some true, some 300000, none⟩

/-! ## Listener.Accept (src/internal/utils/net_listener.go) -/

/-- How one call to `utils.Listener.Accept` can end: return a tuned
connection, return an error, or panic (the `panic(err)` when closing the
freshly accepted connection itself fails). -/
inductive AcceptOutcome where
  | accepted (c : Conn)
  | errReturn
  | panicked
deriving DecidableEq

/-- The environment of one `Accept` call: what the embedded listener's
`Accept` produced (`none` = error), and whether `SetClientSocketOptions` and
the recovery `conn.Close()` fail on this connection. -/
structure AcceptEnv where
  baseResult : Option Conn
  setOptsFails : Bool
  closeFails : Bool
deriving DecidableEq

/-- `Listener.Accept` translated: propagate a base accept error; on
socket-tuning failure close the connection (panicking if that close fails)
and return an error; otherwise return the tuned connection. The second
component records whether `conn.Close()` was invoked. -/
def listenerAccept (e : AcceptEnv) : AcceptOutcome × Bool :=
  match e.baseResult with
  | none => (.errReturn, false)
  | some c =>
    if e.setOptsFails then
      if e.closeFails then (.panicked, true) else (.errReturn, true)
    else (.accepted c, false)

/-- C10 counterexample: when socket tuning fails and the recovery close also
fails, `Accept` panics — it does not return an error as the claim states. -/
theorem accept_close_failure_panics :
    listenerAccept ⟨some ⟨.tcpAddr (.v4 7), 0⟩, true, true⟩ = (.panicked, true) ∧
      (AcceptOutcome.panicked ≠ AcceptOutcome.errReturn) := by
  decide

/-- C10 (amended): on every socket-tuning failure `Close` is invoked on the
connection before `Accept` finishes, and `Accept` never returns a connection
whose options were not applied: it returns an error when the close succeeds
and panics when the close itself fails. -/
theorem accept_tuning_failure_never_leaks
    (e : AcceptEnv) (c : Conn)
    (hbase : e.baseResult = some c) (hfail : e.setOptsFails = true) :
    (listenerAccept e).2 = true ∧
      (∀ c', (listenerAccept e).1 ≠ .accepted c') ∧
      (e.closeFails = false → (listenerAccept e).1 = .errReturn) ∧
      (e.closeFails = true → (listenerAccept e).1 = .panicked) := by
  cases hclose : e.closeFails <;>
    simp [listenerAccept, hbase, hfail, hclose]

/-- C10 witness: a concrete accept where tuning fails and the close succeeds:
the connection is closed and an error is returned. -/
theorem accept_tuning_failure_never_leaks_witness :
    (listenerAccept ⟨some ⟨.tcpAddr (.v4 7), 0⟩, true, false⟩).2 = true ∧
      (∀ c', (listenerAccept ⟨some ⟨.tcpAddr (.v4 7), 0⟩, true, false⟩).1 ≠ .accepted c') ∧
      ((⟨some ⟨.tcpAddr (.v4 7), 0⟩, true, false⟩ : AcceptEnv).closeFails = false →
        (listenerAccept ⟨some ⟨.tcpAddr (.v4 7), 0⟩, true, false⟩).1 = .errReturn) ∧
      ((⟨some ⟨.tcpAddr (.v4 7), 0⟩, true, false⟩ : AcceptEnv).closeFails = true →
        (listenerAccept ⟨some ⟨.tcpAddr (.v4 7), 0⟩, true, false⟩).1 = .panicked) :=
  accept_tuning_failure_never_leaks ⟨some ⟨.tcpAddr (.v4 7), 0⟩, true, false⟩
    ⟨.tcpAddr (.v4 7), 0⟩ rfl rfl

end Mtg
